import Mathlib

/-!
Verification of BridgeNLP's result container and pipeline against its
natural-language specification.

The development shallowly embeds the Python sources:
  * `src/bridgenlp/result.py`   — `BridgeResult`, `to_json`,
    `_ensure_serializable`, `_is_json_serializable`, `attach_to_spacy`;
  * `src/bridgenlp/base.py`     — the metrics dictionary,
    `_measure_performance`, `get_metrics`;
  * `src/bridgenlp/pipeline_async.py` — `AsyncPipeline.from_text`,
    `from_tokens`, `from_spacy`.

Python's dynamically typed runtime values are embedded as the inductive
type `PyVal`; in-place mutation of a list that is aliased between a
returned dictionary and a `BridgeResult` field is embedded by returning
the post-call state of the receiver explicitly.  The helpers that live in
`src/bridgenlp/pipeline.py` (absent from the sources: `_check_cache`,
`_update_cache`, `_combine_results`, `add_condition`'s registry) are
modelled from the specification, and are marked as such in their doc
comments.
-/

set_option autoImplicit false

namespace BridgeNLP

/-- Python runtime values, as far as the embedded operations inspect them.
A value is a primitive (`str`, `int`, `bool`, `None`), a container
(`tuple`, `list`, `dict` with string keys, as produced by the embedded
code), or an opaque non-serializable object carrying its `str()` form.
Floats are omitted: no embedded operation constructs or branches on one. -/
inductive PyVal where
  | str (s : String)
  | int (n : Int)
  | bool (b : Bool)
  | none
  | tuple (xs : List PyVal)
  | list (xs : List PyVal)
  | dict (kvs : List (String × PyVal))
  | obj (strForm : String)
deriving Repr, Inhabited

/-- `BridgeResult._is_json_serializable` (result.py): the
`isinstance(obj, (str, int, float, bool, type(None)))` test.  Tuples,
lists, dicts and arbitrary objects all fail it. -/
def isJsonSerializable : PyVal → Bool
  | .str _ => true
  | .int _ => true
  | .bool _ => true
  | .none => true
  | _ => false

mutual

/-- Python's `repr()` on the embedded values (used by `str()` on
containers). -/
def pyRepr : PyVal → String
  | .str s => "'" ++ s ++ "'"
  | .int n => toString n
  | .bool b => if b then "True" else "False"
  | .none => "None"
  | .tuple xs => "(" ++ pyReprItems xs ++ (if xs.length == 1 then ",)" else ")")
  | .list xs => "[" ++ pyReprItems xs ++ "]"
  | .dict kvs => "\x7b" ++ pyReprEntries kvs ++ "\x7d"
  | .obj s => s

/-- Comma-separated `repr`s of a container's items. -/
def pyReprItems : List PyVal → String
  | [] => ""
  | [x] => pyRepr x
  | x :: xs => pyRepr x ++ ", " ++ pyReprItems xs

/-- Comma-separated `repr`s of a dict's entries. -/
def pyReprEntries : List (String × PyVal) → String
  | [] => ""
  | [(k, v)] => "'" ++ k ++ "': " ++ pyRepr v
  | (k, v) :: kvs => "'" ++ k ++ "': " ++ pyRepr v ++ ", " ++ pyReprEntries kvs

end

/-- Python's `str()`: identity on strings, `repr` otherwise. -/
def pyStr : PyVal → String
  | .str s => s
  | v => pyRepr v

/-- The result container of result.py.  The dataclass fields are lists of
runtime values; a well-formed span is a `tuple` of two `int`s, but the
class never enforces that, so the embedding keeps the fields dynamic. -/
structure BridgeResult where
  tokens : List PyVal
  spans : List PyVal := []
  clusters : List PyVal := []
  roles : List PyVal := []
  labels : List PyVal := []
deriving Repr, Inhabited

mutual

/-- `BridgeResult._ensure_serializable` (result.py): dispatch on the
argument.  Dicts and lists are rewritten in place; any other argument is
left untouched (the method only recurses into dicts and lists).  Returns
the value after mutation together with the number of warnings emitted. -/
def ensureSerializable : PyVal → PyVal × Nat
  | .dict kvs => ((.dict (ensureSerEntries kvs).1), (ensureSerEntries kvs).2)
  | .list xs => ((.list (ensureSerItems xs).1), (ensureSerItems xs).2)
  | v => (v, 0)

/-- One dict value or list item, per the `if/elif` chain of
`_ensure_serializable`: recurse into a dict or a list, otherwise coerce
to `str(value)` (with one warning) exactly when the serializability test
fails. -/
def coerceLeaf : PyVal → PyVal × Nat
  | .dict kvs => ((.dict (ensureSerEntries kvs).1), (ensureSerEntries kvs).2)
  | .list xs => ((.list (ensureSerItems xs).1), (ensureSerItems xs).2)
  | v => if isJsonSerializable v then (v, 0) else (.str (pyStr v), 1)

/-- The dict branch of `_ensure_serializable`: rewrite every value. -/
def ensureSerEntries : List (String × PyVal) → List (String × PyVal) × Nat
  | [] => ([], 0)
  | (k, v) :: kvs =>
    ((k, (coerceLeaf v).1) :: (ensureSerEntries kvs).1,
      (coerceLeaf v).2 + (ensureSerEntries kvs).2)

/-- The list branch of `_ensure_serializable`: rewrite every item. -/
def ensureSerItems : List PyVal → List PyVal × Nat
  | [] => ([], 0)
  | v :: xs => ((coerceLeaf v).1 :: (ensureSerItems xs).1,
      (coerceLeaf v).2 + (ensureSerItems xs).2)

end

/-- The dictionary built by the first half of `BridgeResult.to_json`
(result.py): `tokens` always, each other field only when non-empty.  In
Python each entry holds the very list object stored in the dataclass
field. -/
def toJsonDict (r : BridgeResult) : List (String × PyVal) :=
  [("tokens", .list r.tokens)]
    ++ (if r.spans.isEmpty then [] else [("spans", .list r.spans)])
    ++ (if r.clusters.isEmpty then [] else [("clusters", .list r.clusters)])
    ++ (if r.roles.isEmpty then [] else [("roles", .list r.roles)])
    ++ (if r.labels.isEmpty then [] else [("labels", .list r.labels)])

/-- `BridgeResult.to_json` (result.py).  Returns the serialized
dictionary, the state of the receiver after the call, and the number of
`SerializationWarning`s emitted.  Because the dictionary's entries alias
the receiver's field lists, the in-place coercions of
`_ensure_serializable` write through to the receiver: a field that was
placed in the dictionary ends up as its coerced list (a field skipped for
being empty is untouched). -/
def toJson (r : BridgeResult) : List (String × PyVal) × BridgeResult × Nat :=
  let res := ensureSerEntries (toJsonDict r)
  let post : BridgeResult :=
    { tokens := (ensureSerItems r.tokens).1
      spans := if r.spans.isEmpty then r.spans else (ensureSerItems r.spans).1
      clusters := if r.clusters.isEmpty then r.clusters else (ensureSerItems r.clusters).1
      roles := if r.roles.isEmpty then r.roles else (ensureSerItems r.roles).1
      labels := if r.labels.isEmpty then r.labels else (ensureSerItems r.labels).1 }
  (res.1, post, res.2)

/-- A spaCy `Doc`, as far as the embedded code reads and writes it: the
token texts and the four `Doc._` extension fields the pipeline and
`attach_to_spacy` manage (`nlp_bridge_spans` …).  An unregistered or
default extension reads as `None` (here `Option.none`).  The multimodal
extension fields of `pipeline_async.py` are omitted: no modelled claim
inspects them and `BridgeResult` (result.py) has no fields for them. -/
structure SDoc where
  tokens : List String
  extSpans : Option (List PyVal) := Option.none
  extClusters : Option (List PyVal) := Option.none
  extRoles : Option (List PyVal) := Option.none
  extLabels : Option (List PyVal) := Option.none
deriving Repr, Inhabited

/-- The assignment half of `BridgeResult.attach_to_spacy` (result.py,
lines 114-118): set the four extension fields to the result's lists. -/
def attachCore (r : BridgeResult) (d : SDoc) : SDoc :=
  { d with
    extSpans := some r.spans
    extClusters := some r.clusters
    extRoles := some r.roles
    extLabels := some r.labels }

/-- `BridgeResult.attach_to_spacy` (result.py): raise `ValueError` when
the document is `None`, otherwise register the extensions and assign the
result's four field lists, returning the same document. -/
def attach_to_spacy (r : BridgeResult) : Option SDoc → Except String SDoc
  | Option.none => .error "Cannot attach results to None"
  | some d => .ok (attachCore r d)

/-- The `_metrics` dictionary of `BridgeBase.__init__` (base.py).  Times
are rationals: the embedding keeps Python's float arithmetic exact on the
values the claims touch, and `time.time()` deltas are nonnegative. -/
structure Metrics where
  num_calls : Nat
  total_time : ℚ
  total_tokens : Nat
  errors : Nat
deriving Repr, DecidableEq, Inhabited

/-- The fresh metrics dictionary (all counters zero). -/
def Metrics.init : Metrics := ⟨0, 0, 0, 0⟩

/-- Python's `/` on numbers: raises `ZeroDivisionError` on a zero
divisor (also for floats), otherwise divides. -/
def pyDiv (a b : ℚ) : Except String ℚ :=
  if b = 0 then .error "ZeroDivisionError" else .ok (a / b)

/-- The mapping returned by `BridgeBase.get_metrics` (base.py): the four
counters plus the derived entries when present. -/
structure MetricsOut where
  num_calls : Nat
  total_time : ℚ
  total_tokens : Nat
  errors : Nat
  avg_time : Option ℚ
  tokens_per_second : Option ℚ
deriving Repr, DecidableEq

/-- `BridgeBase.get_metrics` (base.py): copy the counters; when
`num_calls > 0` add `avg_time = total_time / num_calls`, and when
additionally `total_tokens > 0` add
`tokens_per_second = total_tokens / total_time`.  The second division's
guard tests `total_tokens`, not the divisor `total_time`. -/
def get_metrics (m : Metrics) : Except String MetricsOut :=
  if m.num_calls > 0 then
    match pyDiv m.total_time m.num_calls with
    | .error e => .error e
    | .ok avg =>
      if m.total_tokens > 0 then
        match pyDiv m.total_tokens m.total_time with
        | .error e => .error e
        | .ok tps =>
          .ok ⟨m.num_calls, m.total_time, m.total_tokens, m.errors, some avg, some tps⟩
      else
        .ok ⟨m.num_calls, m.total_time, m.total_tokens, m.errors, some avg, Option.none⟩
  else
    .ok ⟨m.num_calls, m.total_time, m.total_tokens, m.errors, Option.none, Option.none⟩

/-- A condition predicate as registered by `Pipeline.add_condition`.  In
Python a predicate receives a (deep-copied) `BridgeResult` object and may
mutate it; the embedding records both the returned boolean and the state
the argument object is left in, so that discarding or keeping that state
distinguishes calling the predicate on a copy from calling it on the
original. -/
def Cond := BridgeResult → Bool × BridgeResult

/-- An adapter, as the pipeline invokes it: the three processing entry
points, each of which may raise (`Except.error`). -/
structure Adapter where
  from_text : String → Except String BridgeResult
  from_tokens : List PyVal → Except String BridgeResult
  from_spacy : SDoc → Except String SDoc

/-- The pipeline state `AsyncPipeline` works over: the adapter list, the
condition registry (`add_condition`'s index-keyed mapping), the bounded
result cache, the two configuration switches the core reads, the cache
bound, and the metrics counters. -/
structure PipelineState where
  adapters : List Adapter
  conditions : List (Nat × Cond) := []
  cache : List (String × BridgeResult) := []
  cache_enabled : Bool := true
  cache_size : Nat := 100
  collect_metrics : Bool := true
  metrics : Metrics := Metrics.init

/-- Lookup in the condition registry (`if i in self._conditions`). -/
def condLookup (cs : List (Nat × Cond)) (i : Nat) : Option Cond :=
  (cs.find? (fun c => c.1 == i)).map (·.2)

/-- Deep copy of a result (`copy.deepcopy`).  On the embedding's values a
deep copy is the same value; its effect — that mutation of the copy is
invisible through the original — is captured where copies are made, by
discarding the mutated state of the copy. -/
def deepcopy (r : BridgeResult) : BridgeResult := r

/-- Modelled from the spec: `Pipeline._check_cache`
(src/bridgenlp/pipeline.py is absent from the sources).  Per §4.6/§3,
when caching is enabled and the fingerprint key is present, a deep copy
of the cached Result is returned; otherwise `None`. -/
def checkCache (st : PipelineState) (key : String) : Option BridgeResult :=
  if st.cache_enabled then
    ((st.cache.find? (fun e => e.1 == key)).map (fun e => deepcopy e.2))
  else
    Option.none

/-- Modelled from the spec: `Pipeline._update_cache`
(src/bridgenlp/pipeline.py is absent from the sources).  Per §3/§4.6,
when caching is enabled a deep copy of the Result is stored under the
key in the bounded cache, evicting the oldest entries beyond the bound
(the cache list keeps newest first). -/
def updateCache (st : PipelineState) (key : String) (r : BridgeResult) : PipelineState :=
  if st.cache_enabled then
    { st with cache :=
        ((key, deepcopy r) :: st.cache.filter (fun e => !(e.1 == key))).take st.cache_size }
  else
    st

/-- Modelled from the spec: `Pipeline._combine_results`
(src/bridgenlp/pipeline.py is absent from the sources).  Per §4.5: the
base's tokens and labels win unless empty; spans, clusters and roles are
concatenated, base's entries first. -/
def combineResults (base addition : BridgeResult) : BridgeResult :=
  { tokens := if base.tokens.isEmpty then addition.tokens else base.tokens
    spans := base.spans ++ addition.spans
    clusters := base.clusters ++ addition.clusters
    roles := base.roles ++ addition.roles
    labels := if base.labels.isEmpty then addition.labels else base.labels }

/-- A deterministic stand-in for Python's opaque `hash(str)`. -/
def pyHash (s : String) : Int :=
  s.data.foldl (fun a c => a * 31 + (c.toNat : Int)) 7

/-- Entry of `BridgeBase._measure_performance` (base.py): when metrics
collection is on, `num_calls` is incremented before the body runs. -/
def measEnter (st : PipelineState) : PipelineState :=
  if st.collect_metrics then
    { st with metrics := { st.metrics with num_calls := st.metrics.num_calls + 1 } }
  else st

/-- Exit of `BridgeBase._measure_performance` (base.py): the `finally`
block adds the elapsed time `dt`.  The `except` branch (incrementing
`errors`) runs only when an exception propagates out of the body. -/
def measExit (st : PipelineState) (dt : ℚ) : PipelineState :=
  if st.collect_metrics then
    { st with metrics := { st.metrics with total_time := st.metrics.total_time + dt } }
  else st

/-- What a pipeline call did: which adapter indices were invoked, and how
many non-fatal warnings were emitted. -/
structure Trace where
  calls : List Nat
  warnings : Nat
deriving Repr, DecidableEq

/-- `BridgeResult(tokens=[])`. -/
def emptyResult : BridgeResult := { tokens := [] }

/-- Python truthiness (`not x` is `!pyFalsy x = false`) on the embedded
values. -/
def pyFalsy : PyVal → Bool
  | .str s => s.isEmpty
  | .int n => n == 0
  | .bool b => !b
  | .none => true
  | .tuple xs => xs.isEmpty
  | .list xs => xs.isEmpty
  | .dict kvs => kvs.isEmpty
  | .obj _ => false

/-- `isinstance(x, str)`. -/
def isPyStr : PyVal → Bool
  | .str _ => true
  | _ => false

/-- `isinstance(x, list)`. -/
def isPyList : PyVal → Bool
  | .list _ => true
  | _ => false

/-- `not text.strip()` — whether stripping whitespace leaves nothing,
i.e. every character of the string is whitespace.  Only reached on
strings (short-circuit), arbitrary elsewhere. -/
def stripEmpty : PyVal → Bool
  | .str s => s.data.all (·.isWhitespace)
  | _ => true

/-- The input guard of `AsyncPipeline.from_text` (pipeline_async.py line
42): `not text or not isinstance(text, str) or not text.strip()`. -/
def guardFailsText (input : PyVal) : Bool :=
  pyFalsy input || !isPyStr input || stripEmpty input

/-- The input guard of `AsyncPipeline.from_tokens` (pipeline_async.py
line 81): `not tokens or not isinstance(tokens, list)`. -/
def guardFailsTokens (input : PyVal) : Bool :=
  pyFalsy input || !isPyList input

/-- The cache key of `from_text`: `f"text:{hash(text)}"`. -/
def textKey (s : String) : String := "text:" ++ toString (pyHash s)

/-- The cache key of `from_tokens`:
`f"tokens:{hash(tuple(str(t) for t in tokens))}"`. -/
def tokensKey (xs : List PyVal) : String :=
  "tokens:" ++ toString (pyHash (String.intercalate "\x00" (xs.map pyStr)))

/-- The cache key of `from_spacy`:
`f"spacy:{hash(doc.text)}:{hash(tuple(t.text for t in doc))}"`. -/
def spacyKey (d : SDoc) : String :=
  "spacy:" ++ toString (pyHash (String.intercalate " " d.tokens)) ++ ":"
    ++ toString (pyHash (String.intercalate "\x00" d.tokens))

/-- The skip decision at adapter index `i` (pipeline_async.py lines
60-65): when a condition is registered at `i`, it is called on a deep
copy of the running combined result — so the state the predicate leaves
its argument in is discarded — and its boolean verdict decides; with no
registered condition the adapter runs. -/
def condGate (conds : List (Nat × Cond)) (i : Nat) (acc : BridgeResult) : Bool :=
  match condLookup conds i with
  | some p => (p (deepcopy acc)).1
  | Option.none => true

/-- The adapter loop of `from_text`/`from_tokens` (pipeline_async.py
lines 59-69 / 100-110): for each remaining adapter at index `i ≥ 1`, a
`false` gate skips the adapter; otherwise the adapter is invoked and its
result folded in with `_combine_results`.  An adapter exception aborts
the loop.  Also returns the indices invoked. -/
def runRest (conds : List (Nat × Cond)) (call : Adapter → Except String BridgeResult) :
    List Adapter → Nat → BridgeResult → Except String BridgeResult × List Nat
  | [], _, acc => (.ok acc, [])
  | a :: rest, i, acc =>
    if condGate conds i acc then
      match call a with
      | .error e => (.error e, [i])
      | .ok next =>
        let r := runRest conds call rest (i + 1) (combineResults acc next)
        (r.1, i :: r.2)
    else
      runRest conds call rest (i + 1) acc

/-- The `try` body of `from_text`/`from_tokens` (pipeline_async.py lines
57-73 / 97-114): run the first adapter unconditionally, fold the rest
through `runRest`, then add the combined token count to
`total_tokens`, store the combined result in the cache, and return a deep
copy of it.  An exception anywhere surfaces as `Except.error`, with no
metric or cache update. -/
def pipelineBody (st : PipelineState) (call : Adapter → Except String BridgeResult)
    (key : String) : Except String (BridgeResult × PipelineState) × List Nat :=
  match st.adapters with
  | [] => (.error "IndexError", [])
  | a0 :: rest =>
    match call a0 with
    | .error e => (.error e, [0])
    | .ok r0 =>
      match runRest st.conditions call rest 1 r0 with
      | (.error e, calls) => (.error e, 0 :: calls)
      | (.ok combined, calls) =>
        let st1 := { st with metrics :=
          { st.metrics with total_tokens := st.metrics.total_tokens + combined.tokens.length } }
        let st2 := updateCache st1 key combined
        (.ok (deepcopy combined, st2), 0 :: calls)

/-- `AsyncPipeline.from_text` (pipeline_async.py lines 40-77).  `dt` is
the elapsed time `_measure_performance` observes.  Returns the result,
the pipeline state after the call, and the trace of the call.  Every
exception of the body is caught, so the function is total: a guard-failed
input returns `BridgeResult(tokens=[])` before any cache or adapter
access; a cache hit returns the cached copy; an empty adapter snapshot or
a body exception returns `BridgeResult(tokens=[])` with one warning. -/
def from_text (st0 : PipelineState) (input : PyVal) (dt : ℚ) :
    BridgeResult × PipelineState × Trace :=
  let st := measEnter st0
  if guardFailsText input then
    (emptyResult, measExit st dt, ⟨[], 0⟩)
  else
    match input with
    | .str s =>
      let key := textKey s
      match checkCache st key with
      | some cached => (cached, measExit st dt, ⟨[], 0⟩)
      | Option.none =>
        if st.adapters.isEmpty then
          (emptyResult, measExit st dt, ⟨[], 1⟩)
        else
          match pipelineBody st (fun a => a.from_text s) key with
          | (.ok (r, st'), calls) => (r, measExit st' dt, ⟨calls, 0⟩)
          | (.error _, calls) => (emptyResult, measExit st dt, ⟨calls, 1⟩)
    | _ => (emptyResult, measExit st dt, ⟨[], 0⟩)

/-- `AsyncPipeline.from_tokens` (pipeline_async.py lines 79-118), exactly
parallel to `from_text` with the token-list guard and key
(`safe_tokens = list(tokens)` passes the same item values on). -/
def from_tokens (st0 : PipelineState) (input : PyVal) (dt : ℚ) :
    BridgeResult × PipelineState × Trace :=
  let st := measEnter st0
  if guardFailsTokens input then
    (emptyResult, measExit st dt, ⟨[], 0⟩)
  else
    match input with
    | .list xs =>
      let key := tokensKey xs
      match checkCache st key with
      | some cached => (cached, measExit st dt, ⟨[], 0⟩)
      | Option.none =>
        if st.adapters.isEmpty then
          (emptyResult, measExit st dt, ⟨[], 1⟩)
        else
          match pipelineBody st (fun a => a.from_tokens xs) key with
          | (.ok (r, st'), calls) => (r, measExit st' dt, ⟨calls, 0⟩)
          | (.error _, calls) => (emptyResult, measExit st dt, ⟨calls, 1⟩)
    | _ => (emptyResult, measExit st dt, ⟨[], 0⟩)

/-- The `except` branch of `_measure_performance` (base.py lines
103-105): an exception propagating out of the measured body increments
`errors` before being re-raised. -/
def bumpErrors (st : PipelineState) : PipelineState :=
  if st.collect_metrics then
    { st with metrics := { st.metrics with errors := st.metrics.errors + 1 } }
  else st

/-- The extension-registration block of `from_spacy` (pipeline_async.py
lines 146-170): each still-`None` core extension field of the document is
set to an empty list, in place. -/
def initExts (d : SDoc) : SDoc :=
  { d with
    extSpans := some (d.extSpans.getD [])
    extClusters := some (d.extClusters.getD [])
    extRoles := some (d.extRoles.getD [])
    extLabels := some (d.extLabels.getD []) }

/-- Reading a result off a document's extension fields (pipeline_async.py
lines 176-182 and 201-207): the token texts plus, for each field, a deep
copy of the extension value when it is truthy, else `[]` (an unset
`None` and an empty list both yield `[]`). -/
def resultFromDoc (d : SDoc) : BridgeResult :=
  { tokens := d.tokens.map PyVal.str
    spans := d.extSpans.getD []
    clusters := d.extClusters.getD []
    roles := d.extRoles.getD []
    labels := d.extLabels.getD [] }

/-- The write-back of the combined result onto the document
(pipeline_async.py lines 210-213). -/
def writeBack (d : SDoc) (r : BridgeResult) : SDoc :=
  { d with
    extSpans := some (deepcopy r).spans
    extClusters := some (deepcopy r).clusters
    extRoles := some (deepcopy r).roles
    extLabels := some (deepcopy r).labels }

/-- The adapter loop of `from_spacy` (pipeline_async.py lines 184-213):
for each remaining adapter at index `i ≥ 1`, a registered condition is
evaluated on a deep copy of the running combined result and a `false`
verdict skips the adapter; otherwise the adapter processes the current
document, the result read back off the document is folded in, and the
combined result is written back onto the document.  On an adapter
exception the loop aborts carrying the document as it stood at the
failure (the `doc` variable the `except` handler returns). -/
def runRestSpacy (conds : List (Nat × Cond)) :
    List Adapter → Nat → SDoc → BridgeResult →
      Except (String × SDoc) (SDoc × BridgeResult) × List Nat
  | [], _, d, acc => (.ok (d, acc), [])
  | a :: rest, i, d, acc =>
    if condGate conds i acc then
      match a.from_spacy d with
      | .error e => (.error (e, d), [i])
      | .ok d1 =>
        let combined := combineResults acc (resultFromDoc d1)
        let d2 := writeBack d1 combined
        let r := runRestSpacy conds rest (i + 1) d2 combined
        (r.1, i :: r.2)
    else
      runRestSpacy conds rest (i + 1) d acc

/-- `AsyncPipeline.from_spacy` (pipeline_async.py lines 120-228).  The
only exception that reaches the caller is the `ValueError` on a falsy
(token-less) document, which passes through `_measure_performance` and
so increments `errors`; every other failure is caught and answered with
the document as it stood at the failure, plus a warning.  A cache hit
answers `cached.attach_to_spacy(doc)`.  On success the token count is
added to `total_tokens`, the combined result is cached, and the
processed document is returned. -/
def from_spacy (st0 : PipelineState) (doc : SDoc) (dt : ℚ) :
    Except String SDoc × PipelineState × Trace :=
  let st := measEnter st0
  if doc.tokens.isEmpty then
    (.error "Cannot process empty Doc", measExit (bumpErrors st) dt, ⟨[], 0⟩)
  else
    let key := spacyKey doc
    match checkCache st key with
    | some cached => (.ok (attachCore cached doc), measExit st dt, ⟨[], 0⟩)
    | Option.none =>
      match st.adapters with
      | [] => (.ok doc, measExit st dt, ⟨[], 1⟩)
      | a0 :: rest =>
        let d0 := initExts doc
        let combined0 : BridgeResult := { tokens := d0.tokens.map PyVal.str }
        match a0.from_spacy d0 with
        | .error _ => (.ok d0, measExit st dt, ⟨[0], 1⟩)
        | .ok d1 =>
          let combined1 := combineResults combined0 (resultFromDoc d1)
          match runRestSpacy st.conditions rest 1 d1 combined1 with
          | (.error (_, dFail), calls) =>
            (.ok dFail, measExit st dt, ⟨0 :: calls, 1⟩)
          | (.ok (dFinal, combinedF), calls) =>
            let st1 := { st with metrics :=
              { st.metrics with total_tokens :=
                  st.metrics.total_tokens + dFinal.tokens.length } }
            let st2 := updateCache st1 key combinedF
            (.ok dFinal, measExit st2 dt, ⟨0 :: calls, 0⟩)

/-- Lookup of a key in an embedded dictionary. -/
def dictLookup (kvs : List (String × PyVal)) (k : String) : Option PyVal :=
  (kvs.find? (fun e => e.1 == k)).map (·.2)

mutual

/-- A value is in serialized form when, recursively, every dict value and
list item is either a nested dict/list in serialized form or a leaf
passing `_is_json_serializable` — what `_ensure_serializable`
establishes. -/
def serializedVal : PyVal → Bool
  | .dict kvs => serializedEntries kvs
  | .list xs => serializedItems xs
  | v => isJsonSerializable v

/-- Serialized form for a dict's entries. -/
def serializedEntries : List (String × PyVal) → Bool
  | [] => true
  | (_, v) :: kvs => serializedVal v && serializedEntries kvs

/-- Serialized form for a list's items. -/
def serializedItems : List PyVal → Bool
  | [] => true
  | v :: xs => serializedVal v && serializedItems xs

end

mutual

/-- The number of offending leaves in a value: dict values and list
items that are neither nested dicts/lists nor serializable leaves —
exactly the positions `_ensure_serializable` coerces (and warns about). -/
def badCountVal : PyVal → Nat
  | .dict kvs => badCountEntries kvs
  | .list xs => badCountItems xs
  | v => if isJsonSerializable v then 0 else 1

/-- Offending-leaf count over a dict's entries. -/
def badCountEntries : List (String × PyVal) → Nat
  | [] => 0
  | (_, v) :: kvs => badCountVal v + badCountEntries kvs

/-- Offending-leaf count over a list's items. -/
def badCountItems : List PyVal → Nat
  | [] => 0
  | v :: xs => badCountVal v + badCountItems xs

end

/-- Forgetting a condition predicate's mutation of its argument: the
same boolean verdicts, with the argument object left exactly as it was
received. -/
def eraseMut (p : Cond) : Cond := fun r => ((p r).1, r)

/-- `eraseMut` across a condition registry. -/
def eraseMuts (cs : List (Nat × Cond)) : List (Nat × Cond) :=
  cs.map (fun c => (c.1, eraseMut c.2))

/-- An adapter whose every entry point raises. -/
def failingAdapter (msg : String) : Adapter :=
  ⟨fun _ => .error msg, fun _ => .error msg, fun _ => .error msg⟩

/-- An adapter that returns a fixed result from text and tokens and
appends a fixed span to a document's span extension. -/
def constAdapter (r : BridgeResult) (sp : PyVal) : Adapter :=
  ⟨fun _ => .ok r, fun _ => .ok r,
    fun d => .ok { d with extSpans := some (d.extSpans.getD [] ++ [sp]) }⟩

end BridgeNLP


namespace BridgeNLP

/-- Example pipeline: a raising adapter followed by a successful one. -/
def exFailFirstPipeline : PipelineState :=
  { adapters := [failingAdapter "boom",
      constAdapter (BridgeResult.mk [PyVal.str "x"] [] [] [] []) (.int 0)] }

/-- Example pipeline: one adapter with a distinctive label and an
always-false condition registered at index 0. -/
def exCondZeroPipeline : PipelineState :=
  { adapters := [constAdapter (BridgeResult.mk [PyVal.str "x"] [] [] [] [PyVal.str "A"]) (.int 0)]
    conditions := [(0, fun r => (false, r))] }

/-- Example pipeline: two adapters with an always-false condition
registered at index 1. -/
def exCondOnePipeline : PipelineState :=
  { adapters := [constAdapter (BridgeResult.mk [PyVal.str "x"] [] [] [] []) (.int 0),
      constAdapter (BridgeResult.mk [PyVal.str "x"] [] [] [] [PyVal.str "B"]) (.int 1)]
    conditions := [(1, fun r => (false, r))] }

/-- Example pipeline: one successful adapter, caching on. -/
def exCopyPipeline : PipelineState :=
  { adapters := [constAdapter (BridgeResult.mk [PyVal.str "x"] [] [] [] []) (.int 0)] }

/-- Example document with a single token and no extensions set. -/
def exDoc : SDoc := { tokens := ["w"] }

/-- Example pipeline for the document path: a span-annotating adapter
followed by a raising one. -/
def exSpanThenFailPipeline : PipelineState :=
  { adapters := [constAdapter (BridgeResult.mk [] [] [] [] []) (.tuple [.int 0, .int 1]),
      failingAdapter "boom"] }

/-! ### Bookkeeping lemmas for the measurement wrappers and the cache -/

theorem measEnter_adapters (st : PipelineState) : (measEnter st).adapters = st.adapters := by
  unfold measEnter; split <;> rfl

theorem measEnter_conditions (st : PipelineState) :
    (measEnter st).conditions = st.conditions := by
  unfold measEnter; split <;> rfl

theorem measEnter_cache (st : PipelineState) : (measEnter st).cache = st.cache := by
  unfold measEnter; split <;> rfl

theorem measEnter_errors (st : PipelineState) :
    (measEnter st).metrics.errors = st.metrics.errors := by
  unfold measEnter; split <;> rfl

theorem measEnter_cache_enabled (st : PipelineState) :
    (measEnter st).cache_enabled = st.cache_enabled := by
  unfold measEnter; split <;> rfl

theorem measEnter_cache_size (st : PipelineState) :
    (measEnter st).cache_size = st.cache_size := by
  unfold measEnter; split <;> rfl

theorem measExit_cache (st : PipelineState) (dt : ℚ) : (measExit st dt).cache = st.cache := by
  unfold measExit; split <;> rfl

theorem measExit_errors (st : PipelineState) (dt : ℚ) :
    (measExit st dt).metrics.errors = st.metrics.errors := by
  unfold measExit; split <;> rfl

theorem checkCache_measEnter (st : PipelineState) (k : String) :
    checkCache (measEnter st) k = checkCache st k := by
  unfold measEnter; split <;> rfl

theorem checkCache_measExit (st : PipelineState) (dt : ℚ) (k : String) :
    checkCache (measExit st dt) k = checkCache st k := by
  unfold measExit; split <;> rfl

/-! ### C8 — `attach_to_spacy` -/

/-- C8: `BridgeResult.attach_to_spacy` raises `ValueError` if and only if
the given document is `None`: on `None` it raises, and on every document
it returns that same document (same tokens) with the result's spans,
clusters, roles and labels attached as the four named extension fields,
raising no exception. -/
theorem attach_to_spacy_raises_iff_none (r : BridgeResult) :
    attach_to_spacy r Option.none = .error "Cannot attach results to None" ∧
    ∀ d : SDoc, attach_to_spacy r (some d) =
      .ok { tokens := d.tokens, extSpans := some r.spans, extClusters := some r.clusters,
            extRoles := some r.roles, extLabels := some r.labels } :=
  ⟨rfl, fun _ => rfl⟩

/-! ### C7 — `get_metrics` and its division guards -/

/-- C7 counterexample: in the reachable metrics state with one recorded
call, five processed tokens and zero elapsed time, `get_metrics` raises
`ZeroDivisionError`: the `tokens_per_second` division is guarded by
`total_tokens > 0`, not by its divisor `total_time`. -/
theorem get_metrics_zero_time_raises :
    get_metrics ⟨1, 0, 5, 0⟩ = .error "ZeroDivisionError" := by rfl

/-- C7 (amended): `get_metrics` raises `ZeroDivisionError` exactly in the
states with `num_calls > 0`, `total_tokens > 0` and `total_time = 0`; in
every other state it returns the aggregate counters, with
`avg_time = total_time / num_calls` present when `num_calls > 0` and
`tokens_per_second = total_tokens / total_time` present when additionally
`total_tokens > 0`. -/
theorem get_metrics_guard_characterization (m : Metrics) :
    (0 < m.num_calls → 0 < m.total_tokens → m.total_time = 0 →
      get_metrics m = .error "ZeroDivisionError") ∧
    (m.num_calls = 0 ∨ m.total_tokens = 0 ∨ m.total_time ≠ 0 →
      get_metrics m = .ok ⟨m.num_calls, m.total_time, m.total_tokens, m.errors,
        (if m.num_calls = 0 then Option.none else some (m.total_time / m.num_calls)),
        (if m.num_calls ≠ 0 ∧ m.total_tokens ≠ 0 then
            some ((m.total_tokens : ℚ) / m.total_time)
          else Option.none)⟩) := by
  constructor
  · intro h1 h2 h3
    have hc : ((m.num_calls : ℚ)) ≠ 0 := by
      exact_mod_cast Nat.pos_iff_ne_zero.mp h1
    simp [get_metrics, pyDiv, h1, h2, h3, hc]
  · intro h
    rcases Nat.eq_zero_or_pos m.num_calls with h1 | h1
    · simp [get_metrics, h1]
    · have hc : ((m.num_calls : ℚ)) ≠ 0 := by
        exact_mod_cast Nat.pos_iff_ne_zero.mp h1
      rcases Nat.eq_zero_or_pos m.total_tokens with h2 | h2
      · simp [get_metrics, pyDiv, h1, h2, hc, Nat.pos_iff_ne_zero.mp h1]
      · have h3 : m.total_time ≠ 0 := by
          rcases h with h | h | h
          · omega
          · omega
          · exact h
        simp [get_metrics, pyDiv, h1, h2, hc, h3,
          Nat.pos_iff_ne_zero.mp h1, Nat.pos_iff_ne_zero.mp h2]

/-- Witness for the amended C7 theorem at the state
`num_calls = 1, total_time = 0, total_tokens = 5`. -/
theorem get_metrics_guard_characterization_witness :
    get_metrics ⟨1, 0, 5, 0⟩ = .error "ZeroDivisionError" :=
  (get_metrics_guard_characterization ⟨1, 0, 5, 0⟩).1 (by decide) (by decide) rfl

/-! ### C9 — degenerate inputs return early -/

/-- C9: for every input that is not a non-whitespace string (for
`from_text`) resp. not a non-empty list (for `from_tokens`) — covering
empty, whitespace-only and wrongly-typed inputs — the pipeline returns
`BridgeResult(tokens=[])` immediately: no adapter is invoked (empty call
trace), no warning is emitted, the cache is untouched, and nothing is
raised (the functions are total). -/
theorem degenerate_input_early_return (st : PipelineState) (input : PyVal) (dt : ℚ) :
    ((isPyStr input = false ∨ stripEmpty input = true) →
      from_text st input dt = (emptyResult, measExit (measEnter st) dt, ⟨[], 0⟩) ∧
      (from_text st input dt).2.1.cache = st.cache) ∧
    ((isPyList input = false ∨ input = .list []) →
      from_tokens st input dt = (emptyResult, measExit (measEnter st) dt, ⟨[], 0⟩) ∧
      (from_tokens st input dt).2.1.cache = st.cache) := by
  constructor
  · intro h
    have hg : guardFailsText input = true := by
      rcases h with h | h
      · simp [guardFailsText, h]
      · simp [guardFailsText, h]
    have he : from_text st input dt = (emptyResult, measExit (measEnter st) dt, ⟨[], 0⟩) := by
      simp [from_text, hg]
    refine ⟨he, ?_⟩
    rw [he]
    show (measExit (measEnter st) dt).cache = st.cache
    rw [measExit_cache, measEnter_cache]
  · intro h
    have hg : guardFailsTokens input = true := by
      rcases h with h | h
      · simp [guardFailsTokens, h]
      · simp [guardFailsTokens, h, pyFalsy]
    have he : from_tokens st input dt = (emptyResult, measExit (measEnter st) dt, ⟨[], 0⟩) := by
      simp [from_tokens, hg]
    refine ⟨he, ?_⟩
    rw [he]
    show (measExit (measEnter st) dt).cache = st.cache
    rw [measExit_cache, measEnter_cache]

/-- Witness for C9: a non-string input to `from_text` and a non-list
input to `from_tokens`, on a pipeline whose only adapter would raise if
it were ever invoked. -/
theorem degenerate_input_early_return_witness :
    (from_text { adapters := [failingAdapter "boom"] } (.int 7) 0 =
        (emptyResult, measExit (measEnter { adapters := [failingAdapter "boom"] }) 0, ⟨[], 0⟩) ∧
      (from_text { adapters := [failingAdapter "boom"] } (.int 7) 0).2.1.cache = []) ∧
    (from_tokens { adapters := [failingAdapter "boom"] } (.str "xs") 0 =
        (emptyResult, measExit (measEnter { adapters := [failingAdapter "boom"] }) 0, ⟨[], 0⟩) ∧
      (from_tokens { adapters := [failingAdapter "boom"] } (.str "xs") 0).2.1.cache = []) :=
  ⟨(degenerate_input_early_return _ _ _).1 (Or.inl rfl),
    (degenerate_input_early_return _ _ _).2 (Or.inl rfl)⟩

/-! ### C10 — `to_json` mutates its receiver through aliasing -/

/-- C10: `to_json` is not read-only on its receiver.  The returned
dictionary's `"spans"` entry is the receiver's own (post-call) spans
list, and coercing a non-serializable leaf — here a span stored as a
tuple of two integers — replaces that leaf by its string form inside the
receiver's `spans` list itself. -/
theorem toJson_not_readonly (r : BridgeResult) :
    (r.spans ≠ [] →
      dictLookup (toJson r).1 "spans" = some (.list (toJson r).2.1.spans)) ∧
    (toJson { tokens := [.str "a"], spans := [.tuple [.int 0, .int 1]] }).2.1.spans
      = [.str "(0, 1)"] ∧
    ({ tokens := [.str "a"], spans := [.tuple [.int 0, .int 1]] } : BridgeResult).spans
      = [.tuple [.int 0, .int 1]] := by
  refine ⟨?_, by rfl, rfl⟩
  intro h
  have hs : r.spans.isEmpty = false := by
    cases hsp : r.spans
    · exact absurd hsp h
    · rfl
  simp [toJson, toJsonDict, hs, dictLookup, ensureSerEntries, coerceLeaf]

/-- Witness for C10 at a result with a non-empty spans list. -/
theorem toJson_not_readonly_witness :
    dictLookup (toJson { tokens := [.str "a"], spans := [.tuple [.int 0, .int 1]] }).1 "spans"
      = some (.list (toJson
          { tokens := [.str "a"], spans := [.tuple [.int 0, .int 1]] }).2.1.spans) :=
  (toJson_not_readonly { tokens := [.str "a"], spans := [.tuple [.int 0, .int 1]] }).1
    (by simp)

/-! ### C6 — what `to_json` coerces -/

/-- Invariants of the coercion pass, by strong induction on size: the
output is in serialized form, the warning count equals the number of
offending leaves, and a value with no offending leaf is returned
untouched. -/
theorem serialization_invariants : ∀ n : Nat,
    (∀ v : PyVal, sizeOf v ≤ n →
      serializedVal (coerceLeaf v).1 = true ∧ (coerceLeaf v).2 = badCountVal v ∧
        (badCountVal v = 0 → coerceLeaf v = (v, 0))) ∧
    (∀ kvs : List (String × PyVal), sizeOf kvs ≤ n →
      serializedEntries (ensureSerEntries kvs).1 = true ∧
        (ensureSerEntries kvs).2 = badCountEntries kvs ∧
        (badCountEntries kvs = 0 → ensureSerEntries kvs = (kvs, 0))) ∧
    (∀ xs : List PyVal, sizeOf xs ≤ n →
      serializedItems (ensureSerItems xs).1 = true ∧
        (ensureSerItems xs).2 = badCountItems xs ∧
        (badCountItems xs = 0 → ensureSerItems xs = (xs, 0))) := by
  intro n
  induction n with
  | zero =>
    refine ⟨fun v hv => absurd hv ?_, fun kvs hk => absurd hk ?_, fun xs hx => absurd hx ?_⟩
    · cases v <;> simp
    · cases kvs <;> simp
    · cases xs <;> simp
  | succ n ih =>
    obtain ⟨ihv, ihk, ihx⟩ := ih
    refine ⟨fun v hv => ?_, fun kvs hk => ?_, fun xs hx => ?_⟩
    · cases v with
      | dict kvs =>
        have hk' : sizeOf kvs ≤ n := by simp at hv; omega
        obtain ⟨h1, h2, h3⟩ := ihk kvs hk'
        refine ⟨by simpa [coerceLeaf, serializedVal] using h1,
          by simpa [coerceLeaf, badCountVal] using h2, fun hz => ?_⟩
        have hz' : badCountEntries kvs = 0 := by simpa [badCountVal] using hz
        simp [coerceLeaf, h3 hz']
      | list xs =>
        have hx' : sizeOf xs ≤ n := by simp at hv; omega
        obtain ⟨h1, h2, h3⟩ := ihx xs hx'
        refine ⟨by simpa [coerceLeaf, serializedVal] using h1,
          by simpa [coerceLeaf, badCountVal] using h2, fun hz => ?_⟩
        have hz' : badCountItems xs = 0 := by simpa [badCountVal] using hz
        simp [coerceLeaf, h3 hz']
      | str s => simp [coerceLeaf, serializedVal, badCountVal, isJsonSerializable]
      | int k => simp [coerceLeaf, serializedVal, badCountVal, isJsonSerializable]
      | bool b => simp [coerceLeaf, serializedVal, badCountVal, isJsonSerializable]
      | none => simp [coerceLeaf, serializedVal, badCountVal, isJsonSerializable]
      | tuple xs => simp [coerceLeaf, serializedVal, badCountVal, isJsonSerializable]
      | obj s => simp [coerceLeaf, serializedVal, badCountVal, isJsonSerializable]
    · cases kvs with
      | nil => simp [ensureSerEntries, serializedEntries, badCountEntries]
      | cons e kvs =>
        obtain ⟨k, v⟩ := e
        have hv' : sizeOf v ≤ n := by simp at hk; omega
        have hk' : sizeOf kvs ≤ n := by simp at hk; omega
        obtain ⟨hv1, hv2, hv3⟩ := ihv v hv'
        obtain ⟨hk1, hk2, hk3⟩ := ihk kvs hk'
        refine ⟨by simp [ensureSerEntries, serializedEntries, hv1, hk1],
          by simp [ensureSerEntries, badCountEntries, hv2, hk2], fun hz => ?_⟩
        have hz1 : badCountVal v = 0 := by simp [badCountEntries] at hz; omega
        have hz2 : badCountEntries kvs = 0 := by simp [badCountEntries] at hz; omega
        simp [ensureSerEntries, hv3 hz1, hk3 hz2]
    · cases xs with
      | nil => simp [ensureSerItems, serializedItems, badCountItems]
      | cons v xs =>
        have hv' : sizeOf v ≤ n := by simp at hx; omega
        have hx' : sizeOf xs ≤ n := by simp at hx; omega
        obtain ⟨hv1, hv2, hv3⟩ := ihv v hv'
        obtain ⟨hx1, hx2, hx3⟩ := ihx xs hx'
        refine ⟨by simp [ensureSerItems, serializedItems, hv1, hx1],
          by simp [ensureSerItems, badCountItems, hv2, hx2], fun hz => ?_⟩
        have hz1 : badCountVal v = 0 := by simp [badCountItems] at hz; omega
        have hz2 : badCountItems xs = 0 := by simp [badCountItems] at hz; omega
        simp [ensureSerItems, hv3 hz1, hx3 hz2]

/-- Offending-leaf count distributes over appended entry lists. -/
theorem badCountEntries_append (a b : List (String × PyVal)) :
    badCountEntries (a ++ b) = badCountEntries a + badCountEntries b := by
  induction a with
  | nil => simp [badCountEntries]
  | cons e a ih =>
    obtain ⟨k, v⟩ := e
    simp [badCountEntries, ih]
    omega

/-- An item list with no offending leaf passes the coercion unchanged. -/
theorem ensureSerItems_id (xs : List PyVal) (h : badCountItems xs = 0) :
    ensureSerItems xs = (xs, 0) :=
  ((serialization_invariants (sizeOf xs)).2.2 xs le_rfl).2.2 h

/-- C6 counterexample: on a result whose only span is the integer pair
`(0, 1)` stored as a tuple, `to_json` does NOT leave the pair unchanged:
the returned dictionary carries its string form `"(0, 1)"` instead, with
one warning — the serializability test `isinstance(v, (str, int, float,
bool, NoneType))` rejects tuples. -/
theorem toJson_span_tuple_coerced_cex :
    (toJson { tokens := [.str "a"], spans := [.tuple [.int 0, .int 1]] }).1 =
      [("tokens", .list [.str "a"]), ("spans", .list [.str "(0, 1)"])] ∧
    (toJson { tokens := [.str "a"], spans := [.tuple [.int 0, .int 1]] }).2.2 = 1 ∧
    PyVal.str "(0, 1)" ≠ PyVal.tuple [.int 0, .int 1] := by
  refine ⟨by rfl, by rfl, by simp⟩

/-- C6 (amended): `to_json` recursively coerces to string form exactly
those dict values and list items that fail the primitive serializability
test — which includes the integer tuples representing spans — emitting
one diagnostic warning per coerced leaf; nested dicts and lists are
recursed into, and when every leaf passes the test the dictionary and
the receiver are left completely unchanged. -/
theorem toJson_coercion_amended (r : BridgeResult) :
    serializedEntries (toJson r).1 = true ∧
    (toJson r).2.2 = badCountEntries (toJsonDict r) ∧
    (badCountEntries (toJsonDict r) = 0 →
      (toJson r).1 = toJsonDict r ∧ (toJson r).2.1 = r) := by
  obtain ⟨h1, h2, h3⟩ :=
    (serialization_invariants (sizeOf (toJsonDict r))).2.1 (toJsonDict r) le_rfl
  refine ⟨h1, h2, fun hz => ⟨?_, ?_⟩⟩
  · show (ensureSerEntries (toJsonDict r)).1 = toJsonDict r
    rw [h3 hz]
  · have hifs : ∀ (c : Bool) (k : String) (l : List PyVal),
        badCountEntries (if c = true then [] else [(k, PyVal.list l)]) =
          if c = true then 0 else badCountItems l := by
      intro c k l
      cases c <;> simp [badCountEntries, badCountVal]
    cases r with
    | mk t s c ro l =>
      simp only [toJsonDict, List.append_eq, List.nil_append, List.append_assoc,
        List.cons_append, badCountEntries_append, hifs, badCountEntries,
        badCountVal, Nat.add_eq_zero] at hz
      obtain ⟨htok, hsp, hcl, hro, hla⟩ := hz
      simp only [toJson, BridgeResult.mk.injEq]
      refine ⟨?_, ?_, ?_, ?_, ?_⟩
      · rw [ensureSerItems_id t htok]
      · by_cases hb : s.isEmpty
        · simp [hb]
        · rw [if_neg hb, ensureSerItems_id s (by simpa [hb] using hsp)]
      · by_cases hb : c.isEmpty
        · simp [hb]
        · rw [if_neg hb, ensureSerItems_id c (by simpa [hb] using hcl)]
      · by_cases hb : ro.isEmpty
        · simp [hb]
        · rw [if_neg hb, ensureSerItems_id ro (by simpa [hb] using hro)]
      · by_cases hb : l.isEmpty
        · simp [hb]
        · rw [if_neg hb, ensureSerItems_id l (by simpa [hb] using hla)]

/-- Witness for the amended C6 theorem: a fully serializable result
passes through `to_json` with no warnings and no change. -/
theorem toJson_coercion_amended_witness :
    badCountEntries (toJsonDict { tokens := [PyVal.str "t"] }) = 0 ∧
    (toJson { tokens := [PyVal.str "t"] }).1 = toJsonDict { tokens := [PyVal.str "t"] } ∧
    (toJson { tokens := [PyVal.str "t"] }).2.1 = { tokens := [PyVal.str "t"] } :=
  ⟨by rfl, ((toJson_coercion_amended { tokens := [PyVal.str "t"] }).2.2 (by rfl)).1,
    ((toJson_coercion_amended { tokens := [PyVal.str "t"] }).2.2 (by rfl)).2⟩

/-! ### C1/C2 — adapter exceptions are swallowed -/

/-- On a valid text input, a cache hit returns the cached copy without
running any adapter. -/
theorem from_text_cache_hit (st : PipelineState) (s : String) (dt : ℚ) (c : BridgeResult)
    (hg : guardFailsText (.str s) = false)
    (hc : checkCache st (textKey s) = some c) :
    from_text st (.str s) dt = (c, measExit (measEnter st) dt, ⟨[], 0⟩) := by
  have hc2 : checkCache (measEnter st) (textKey s) = some c := by
    rw [checkCache_measEnter]; exact hc
  simp [from_text, hg, hc2]

/-- On a valid text input with a cache miss and a non-empty adapter
snapshot, `from_text` reduces to its `try` body: the result of
`pipelineBody` on success, `BridgeResult(tokens=[])` plus a warning on an
exception. -/
theorem from_text_miss_eq (st : PipelineState) (s : String) (dt : ℚ)
    (hg : guardFailsText (.str s) = false)
    (hc : checkCache st (textKey s) = Option.none)
    (ha : st.adapters ≠ []) :
    from_text st (.str s) dt =
      match pipelineBody (measEnter st) (fun a => a.from_text s) (textKey s) with
      | (.ok (r, st'), calls) => (r, measExit st' dt, ⟨calls, 0⟩)
      | (.error _, calls) => (emptyResult, measExit (measEnter st) dt, ⟨calls, 1⟩) := by
  have hc' : checkCache (measEnter st) (textKey s) = Option.none := by
    rw [checkCache_measEnter]; exact hc
  have hae : (measEnter st).adapters.isEmpty = false := by
    rw [measEnter_adapters]
    cases h : st.adapters
    · exact absurd h ha
    · rfl
  simp only [from_text, hg, hc', hae, Bool.false_eq_true, if_false]

/-- On a valid text input with a cache miss and an empty adapter
snapshot, `from_text` warns and returns an empty result. -/
theorem from_text_no_adapters (st : PipelineState) (s : String) (dt : ℚ)
    (hg : guardFailsText (.str s) = false)
    (hc : checkCache st (textKey s) = Option.none)
    (ha : st.adapters = []) :
    from_text st (.str s) dt = (emptyResult, measExit (measEnter st) dt, ⟨[], 1⟩) := by
  have hc2 : checkCache (measEnter st) (textKey s) = Option.none := by
    rw [checkCache_measEnter]; exact hc
  have hae : (measEnter st).adapters.isEmpty = true := by
    rw [measEnter_adapters, ha]; rfl
  simp [from_text, hg, hc2, hae]

/-- C1: on a pipeline with a non-empty adapter list and a valid text
input (cache miss), an exception raised from an adapter's `from_text`
call does not propagate: `from_text` returns `BridgeResult(tokens=[])`
and emits one non-fatal warning. -/
theorem from_text_swallows_adapter_exception
    (st : PipelineState) (s : String) (dt : ℚ) (e : String)
    (hg : guardFailsText (.str s) = false)
    (hc : checkCache st (textKey s) = Option.none)
    (ha : st.adapters ≠ [])
    (hfail : (pipelineBody (measEnter st) (fun a => a.from_text s) (textKey s)).1
      = .error e) :
    (from_text st (.str s) dt).1 = emptyResult ∧
    (from_text st (.str s) dt).2.2.warnings = 1 := by
  rw [from_text_miss_eq st s dt hg hc ha]
  rcases hpb : pipelineBody (measEnter st) (fun a => a.from_text s) (textKey s)
    with ⟨exc, calls⟩
  rw [hpb] at hfail
  cases exc with
  | error e' => simp
  | ok p => simp at hfail

/-- Witness for C1: a single always-raising adapter. -/
theorem from_text_swallows_adapter_exception_witness :
    (from_text { adapters := [failingAdapter "boom"] } (.str "x") 1).1 = emptyResult ∧
    (from_text { adapters := [failingAdapter "boom"] } (.str "x") 1).2.2.warnings = 1 :=
  from_text_swallows_adapter_exception _ "x" 1 "boom" rfl rfl (by simp) rfl

/-- C2 counterexample: on the pipeline `[A, B]` where `A` raises on
`from_text("x")` (metrics collection on, all counters zero), the call
returns an empty result but the error counter in the metrics is NOT
incremented: it stays at zero, because the exception is caught inside
the measured region before `_measure_performance`'s error branch could
see it. -/
theorem failing_adapter_error_counter_cex :
    (from_text exFailFirstPipeline (.str "x") 1).1.tokens = [] ∧
    (from_text exFailFirstPipeline (.str "x") 1).2.1.metrics.errors = 0 ∧
    (from_text exFailFirstPipeline (.str "x") 1).2.1.metrics.errors
      ≠ exFailFirstPipeline.metrics.errors + 1 := by
  exact ⟨rfl, rfl, by decide⟩

/-- C2 (amended): when an adapter raises during `from_text`, the call
returns an empty result and leaves the `errors` counter exactly as it
was; the failure is reported through a warning instead. -/
theorem failing_adapter_leaves_error_counter
    (st : PipelineState) (s : String) (dt : ℚ) (e : String)
    (hg : guardFailsText (.str s) = false)
    (hc : checkCache st (textKey s) = Option.none)
    (ha : st.adapters ≠ [])
    (hfail : (pipelineBody (measEnter st) (fun a => a.from_text s) (textKey s)).1
      = .error e) :
    (from_text st (.str s) dt).1.tokens = [] ∧
    (from_text st (.str s) dt).2.1.metrics.errors = st.metrics.errors ∧
    (from_text st (.str s) dt).2.2.warnings = 1 := by
  rw [from_text_miss_eq st s dt hg hc ha]
  rcases hpb : pipelineBody (measEnter st) (fun a => a.from_text s) (textKey s)
    with ⟨exc, calls⟩
  rw [hpb] at hfail
  cases exc with
  | error e' =>
    refine ⟨rfl, ?_, rfl⟩
    show (measExit (measEnter st) dt).metrics.errors = st.metrics.errors
    rw [measExit_errors, measEnter_errors]
  | ok p => simp at hfail

/-- Witness for the amended C2 theorem on the `[A, B]` pipeline with `A`
raising. -/
theorem failing_adapter_leaves_error_counter_witness :
    (from_text exFailFirstPipeline (.str "x") 1).1.tokens = [] ∧
    (from_text exFailFirstPipeline (.str "x") 1).2.1.metrics.errors
      = exFailFirstPipeline.metrics.errors ∧
    (from_text exFailFirstPipeline (.str "x") 1).2.2.warnings = 1 :=
  failing_adapter_leaves_error_counter _ "x" 1 "boom" rfl rfl
    (by simp [exFailFirstPipeline]) rfl

/-! ### C3 — condition predicates gate adapters, but only from index 1 -/

/-- Every index the adapter loop reports invoked is at least the loop's
starting index. -/
theorem runRest_calls_ge (conds : List (Nat × Cond))
    (call : Adapter → Except String BridgeResult) :
    ∀ (rest : List Adapter) (j : Nat) (acc : BridgeResult) (m : Nat),
      m ∈ (runRest conds call rest j acc).2 → j ≤ m := by
  intro rest
  induction rest with
  | nil => intro j acc m hm; simp [runRest] at hm
  | cons a rest ih =>
    intro j acc m hm
    simp only [runRest] at hm
    by_cases hgate : condGate conds j acc = true
    · rw [if_pos hgate] at hm
      cases hca : call a with
      | error e =>
        rw [hca] at hm
        simp at hm
        omega
      | ok next =>
        rw [hca] at hm
        simp at hm
        rcases hm with hm | hm
        · omega
        · have := ih (j + 1) (combineResults acc next) m hm
          omega
    · rw [if_neg hgate] at hm
      have := ih (j + 1) acc m hm
      omega

/-- When an always-false condition is registered at index `i`, the loop
never invokes the adapter at `i` and its behaviour does not depend on
which adapter sits there. -/
theorem runRest_set_skip (conds : List (Nat × Cond))
    (call : Adapter → Except String BridgeResult) (i : Nat) (p : Cond) (a' : Adapter)
    (hp : condLookup conds i = some p) (hfalse : ∀ r, (p r).1 = false) :
    ∀ (rest : List Adapter) (j : Nat) (acc : BridgeResult), j ≤ i →
      runRest conds call (rest.set (i - j) a') j acc = runRest conds call rest j acc ∧
      i ∉ (runRest conds call rest j acc).2 := by
  intro rest
  induction rest with
  | nil => intro j acc hj; simp [runRest]
  | cons a rest ih =>
    intro j acc hj
    rcases Nat.lt_or_ge j i with hlt | hge
    · have hsub : i - j = (i - (j + 1)) + 1 := by omega
      rw [hsub]
      simp only [List.set]
      by_cases hgate : condGate conds j acc = true
      · simp only [runRest, if_pos hgate]
        cases hca : call a with
        | error e =>
          refine ⟨rfl, ?_⟩
          show i ∉ [j]
          simp
          omega
        | ok next =>
          obtain ⟨heq, hmem⟩ := ih (j + 1) (combineResults acc next) (by omega)
          refine ⟨by simp only [heq], ?_⟩
          show i ∉ j :: (runRest conds call rest (j + 1) (combineResults acc next)).2
          simp only [List.mem_cons]
          rintro (h | h)
          · omega
          · exact hmem h
      · simp only [runRest, if_neg hgate]
        exact ih (j + 1) acc (by omega)
    · have hji : j = i := by omega
      subst hji
      have hgate : condGate conds j acc = false := by
        simp [condGate, hp, hfalse]
      simp only [Nat.sub_self, List.set, runRest, hgate, Bool.false_eq_true, if_false]
      refine ⟨by trivial, fun hmem => ?_⟩
      have := runRest_calls_ge conds call rest (j + 1) acc j hmem
      omega

/-- The cache component of `updateCache` only depends on the cache
fields of the state. -/
theorem updateCache_cache_congr (st1 st2 : PipelineState) (k : String) (r : BridgeResult)
    (hc : st1.cache = st2.cache) (he : st1.cache_enabled = st2.cache_enabled)
    (hs : st1.cache_size = st2.cache_size) :
    (updateCache st1 k r).cache = (updateCache st2 k r).cache := by
  unfold updateCache
  rw [he, hc, hs]
  split
  · rfl
  · exact hc

/-- C3 counterexample: a condition registered at index 0 that always
returns `false` does not gate the first adapter.  On a one-adapter
pipeline the adapter is still invoked (call trace `[0]`) and its
distinctive label is present in the returned result. -/
theorem condition_at_index_zero_ignored_cex :
    (from_text exCondZeroPipeline (.str "x") 1).1.labels = [PyVal.str "A"] ∧
    (from_text exCondZeroPipeline (.str "x") 1).2.2.calls = [0] :=
  ⟨rfl, rfl⟩

/-- C3 (amended): a condition predicate registered at an index `i ≥ 1`
gates adapter `i`: when it always returns `false` on the snapshot,
adapter `i` is never invoked and contributes nothing to the call —
replacing adapter `i` by an arbitrary adapter changes neither the
returned result, nor the cache, nor the call trace.  The first adapter
(index 0) is outside the gating loop and always runs (counterexample
`condition_at_index_zero_ignored_cex`). -/
theorem condition_false_gates_adapter
    (st : PipelineState) (s : String) (dt : ℚ) (i : Nat) (p : Cond) (a' : Adapter)
    (hi : 1 ≤ i) (hp : condLookup st.conditions i = some p)
    (hfalse : ∀ r, (p r).1 = false) :
    i ∉ (from_text st (.str s) dt).2.2.calls ∧
    (from_text { st with adapters := st.adapters.set i a' } (.str s) dt).1
      = (from_text st (.str s) dt).1 ∧
    (from_text { st with adapters := st.adapters.set i a' } (.str s) dt).2.1.cache
      = (from_text st (.str s) dt).2.1.cache ∧
    (from_text { st with adapters := st.adapters.set i a' } (.str s) dt).2.2
      = (from_text st (.str s) dt).2.2 := by
  obtain ⟨k, rfl⟩ : ∃ k, i = k + 1 := ⟨i - 1, by omega⟩
  by_cases hg : guardFailsText (.str s) = true
  · refine ⟨by simp [from_text, hg], by simp [from_text, hg], ?_, by simp [from_text, hg]⟩
    simp [from_text, hg, measExit_cache, measEnter_cache]
  · have hgf : guardFailsText (.str s) = false := by
      cases h : guardFailsText (.str s)
      · rfl
      · exact absurd h hg
    cases hch : checkCache st (textKey s) with
    | some c =>
      have hchM : checkCache { st with adapters := st.adapters.set (k + 1) a' }
          (textKey s) = some c := hch
      refine ⟨?_, ?_, ?_, ?_⟩ <;>
        simp [from_text, hgf, checkCache_measEnter, hch, hchM,
          measExit_cache, measEnter_cache]
    | none =>
      have hchM : checkCache { st with adapters := st.adapters.set (k + 1) a' }
          (textKey s) = Option.none := hch
      cases hads : st.adapters with
      | nil =>
        have hchM2 : checkCache { st with adapters := ([] : List Adapter).set (k + 1) a' }
            (textKey s) = Option.none := hch
        have hadsM2 : ({ st with adapters := ([] : List Adapter).set (k + 1) a' }
            : PipelineState).adapters = [] := rfl
        rw [from_text_no_adapters st s dt hgf hch hads,
          from_text_no_adapters _ s dt hgf hchM2 hadsM2]
        refine ⟨by simp, rfl, ?_, rfl⟩
        simp [measExit_cache, measEnter_cache]
      | cons a0 rest =>
        have hchM2 : checkCache { st with adapters := (a0 :: rest).set (k + 1) a' }
            (textKey s) = Option.none := hch
        have hadsM : ({ st with adapters := (a0 :: rest).set (k + 1) a' }
            : PipelineState).adapters = a0 :: rest.set k a' := rfl
        have hne : st.adapters ≠ [] := by rw [hads]; exact List.cons_ne_nil _ _
        have hneM : ({ st with adapters := (a0 :: rest).set (k + 1) a' }
            : PipelineState).adapters ≠ [] := List.cons_ne_nil _ _
        rw [from_text_miss_eq st s dt hgf hch hne,
          from_text_miss_eq _ s dt hgf hchM2 hneM]
        have hsetred : (a0 :: rest).set (k + 1) a' = a0 :: rest.set k a' := rfl
        simp only [pipelineBody, measEnter_adapters, measEnter_conditions,
          hads, hsetred]
        cases hca : a0.from_text s with
        | error e =>
          refine ⟨by simp, rfl, ?_, rfl⟩
          simp [measExit_cache, measEnter_cache]
        | ok r0 =>
          obtain ⟨hskip, hnotin⟩ := runRest_set_skip st.conditions
            (fun a => a.from_text s) (k + 1) p a' hp hfalse rest 1 r0 (by omega)
          simp only [Nat.add_sub_cancel] at hskip
          simp only [hskip]
          rcases hrr : runRest st.conditions (fun a => a.from_text s) rest 1 r0
            with ⟨rexc, rcalls⟩
          rw [hrr] at hnotin
          cases rexc with
          | error e =>
            refine ⟨?_, rfl, ?_, rfl⟩
            · simp only [List.mem_cons]
              rintro (h | h)
              · omega
              · exact hnotin h
            · simp [measExit_cache, measEnter_cache]
          | ok combined =>
            refine ⟨?_, rfl, ?_, rfl⟩
            · simp only [List.mem_cons]
              rintro (h | h)
              · omega
              · exact hnotin h
            · rw [measExit_cache, measExit_cache]
              apply updateCache_cache_congr
              · show (measEnter _).cache = (measEnter st).cache
                rw [measEnter_cache, measEnter_cache]
              · show (measEnter _).cache_enabled = (measEnter st).cache_enabled
                rw [measEnter_cache_enabled, measEnter_cache_enabled]
              · show (measEnter _).cache_size = (measEnter st).cache_size
                rw [measEnter_cache_size, measEnter_cache_size]

/-- Witness for the amended C3 theorem: a two-adapter pipeline with an
always-false condition at index 1; adapter 1 is not invoked, and
replacing it with an always-raising adapter changes nothing observable. -/
theorem condition_false_gates_adapter_witness :
    1 ∉ (from_text exCondOnePipeline (.str "x") 1).2.2.calls ∧
    (from_text { exCondOnePipeline with
        adapters := exCondOnePipeline.adapters.set 1 (failingAdapter "boom") } (.str "x") 1).1
      = (from_text exCondOnePipeline (.str "x") 1).1 :=
  ⟨(condition_false_gates_adapter exCondOnePipeline "x" 1 1 _ (failingAdapter "boom")
      (by decide) rfl (fun _ => rfl)).1,
    (condition_false_gates_adapter exCondOnePipeline "x" 1 1 _ (failingAdapter "boom")
      (by decide) rfl (fun _ => rfl)).2.1⟩

/-! ### C4 — deep copies at the predicate and cache boundaries -/

/-- Erasing predicate mutations commutes with registry lookup. -/
theorem condLookup_eraseMuts (cs : List (Nat × Cond)) (i : Nat) :
    condLookup (eraseMuts cs) i = (condLookup cs i).map eraseMut := by
  induction cs with
  | nil => rfl
  | cons c cs ih =>
    obtain ⟨j, q⟩ := c
    simp only [eraseMuts, List.map_cons, condLookup, List.find?] at *
    cases hj : (j == i)
    · simpa [hj] using ih
    · simp [hj]

/-- The gate only reads the predicate's boolean verdict, so erasing the
mutation of the snapshot argument does not change it. -/
theorem condGate_eraseMuts (cs : List (Nat × Cond)) (i : Nat) (acc : BridgeResult) :
    condGate (eraseMuts cs) i acc = condGate cs i acc := by
  unfold condGate
  rw [condLookup_eraseMuts]
  cases condLookup cs i with
  | none => rfl
  | some p => rfl

/-- The adapter loop is unchanged when predicate mutations are erased:
each skip decision is made on a deep copy, whose post-predicate state is
discarded. -/
theorem runRest_eraseMuts (cs : List (Nat × Cond))
    (call : Adapter → Except String BridgeResult) :
    ∀ (rest : List Adapter) (j : Nat) (acc : BridgeResult),
      runRest (eraseMuts cs) call rest j acc = runRest cs call rest j acc := by
  intro rest
  induction rest with
  | nil => intro j acc; rfl
  | cons a rest ih =>
    intro j acc
    simp only [runRest, condGate_eraseMuts]
    by_cases hgate : condGate cs j acc = true
    · simp only [if_pos hgate]
      cases call a with
      | error e => rfl
      | ok next => simp only [ih]
    · simp only [if_neg hgate]
      exact ih _ _

/-- A freshly cached entry is found again under its key (cache enabled,
capacity at least one). -/
theorem checkCache_updateCache_self (st : PipelineState) (k : String) (r : BridgeResult)
    (he : st.cache_enabled = true) (hs : 1 ≤ st.cache_size) :
    checkCache (updateCache st k r) k = some (deepcopy r) := by
  cases hcs : st.cache_size with
  | zero => omega
  | succ m =>
    simp [updateCache, checkCache, he, hcs, List.take, List.find?, deepcopy]

/-- C4: deep copies at the two result boundaries.  First, erasing every
condition predicate's mutation of its (deep-copied) snapshot argument
changes nothing observable about a `from_text` call — the pipeline
continues with, caches and returns the unmutated combined result.
Second, the value handed back on a cache miss matches what was cached:
an immediate second call with the same text returns the same result from
the cache, so no caller-side use of the returned copy can interfere with
pipeline-internal state. -/
theorem from_text_copy_discipline (st : PipelineState) (input : PyVal) (dt dt' : ℚ)
    (s : String) (r : BridgeResult) (st2 : PipelineState) :
    ((from_text { st with conditions := eraseMuts st.conditions } input dt).1
        = (from_text st input dt).1 ∧
      (from_text { st with conditions := eraseMuts st.conditions } input dt).2.1.cache
        = (from_text st input dt).2.1.cache ∧
      (from_text { st with conditions := eraseMuts st.conditions } input dt).2.2
        = (from_text st input dt).2.2) ∧
    (guardFailsText (.str s) = false →
      checkCache st (textKey s) = Option.none →
      st.adapters ≠ [] →
      st.cache_enabled = true →
      1 ≤ st.cache_size →
      (pipelineBody (measEnter st) (fun a => a.from_text s) (textKey s)).1 = .ok (r, st2) →
      (from_text st (.str s) dt).1 = r ∧
        (from_text (from_text st (.str s) dt).2.1 (.str s) dt').1 = r) := by
  constructor
  · by_cases hg : guardFailsText input = true
    · refine ⟨by simp [from_text, hg], ?_, by simp [from_text, hg]⟩
      simp [from_text, hg, measExit_cache, measEnter_cache]
    · have hgf2 : guardFailsText input = false := by
        cases h : guardFailsText input
        · rfl
        · exact absurd h hg
      cases input with
      | str s0 =>
        cases hch : checkCache st (textKey s0) with
        | some c =>
          have hchE : checkCache { st with conditions := eraseMuts st.conditions }
              (textKey s0) = some c := hch
          refine ⟨?_, ?_, ?_⟩ <;>
            simp [from_text, hgf2, checkCache_measEnter, hch, hchE,
              measExit_cache, measEnter_cache]
        | none =>
          have hchE : checkCache { st with conditions := eraseMuts st.conditions }
              (textKey s0) = Option.none := hch
          cases hads : st.adapters with
          | nil =>
            have hchE2 :
                checkCache { st with adapters := ([] : List Adapter), conditions := eraseMuts st.conditions }
                  (textKey s0) = Option.none := hch
            have hadsE2 :
                ({ st with adapters := ([] : List Adapter), conditions := eraseMuts st.conditions }
                  : PipelineState).adapters = [] := rfl
            rw [from_text_no_adapters st s0 dt hgf2 hch hads,
              from_text_no_adapters _ s0 dt hgf2 hchE2 hadsE2]
            refine ⟨rfl, ?_, rfl⟩
            simp [measExit_cache, measEnter_cache]
          | cons a0 rest =>
            have hne : st.adapters ≠ [] := by rw [hads]; exact List.cons_ne_nil _ _
            have hchE2 :
                checkCache { st with adapters := a0 :: rest, conditions := eraseMuts st.conditions }
                  (textKey s0) = Option.none := hch
            have hneE :
                ({ st with adapters := a0 :: rest, conditions := eraseMuts st.conditions }
                  : PipelineState).adapters ≠ [] :=
              List.cons_ne_nil _ _
            rw [from_text_miss_eq st s0 dt hgf2 hch hne,
              from_text_miss_eq _ s0 dt hgf2 hchE2 hneE]
            simp only [pipelineBody, measEnter_adapters, measEnter_conditions,
              hads, runRest_eraseMuts]
            cases hca : a0.from_text s0 with
            | error e =>
              refine ⟨rfl, ?_, rfl⟩
              simp [measExit_cache, measEnter_cache]
            | ok r0 =>
              simp only []
              rcases hrr : runRest st.conditions (fun a => a.from_text s0) rest 1 r0
                with ⟨rexc, rcalls⟩
              cases rexc with
              | error e =>
                refine ⟨rfl, ?_, rfl⟩
                simp [measExit_cache, measEnter_cache]
              | ok combined =>
                refine ⟨rfl, ?_, rfl⟩
                rw [measExit_cache, measExit_cache]
                apply updateCache_cache_congr
                · show (measEnter _).cache = (measEnter st).cache
                  rw [measEnter_cache, measEnter_cache]
                · show (measEnter _).cache_enabled = (measEnter st).cache_enabled
                  rw [measEnter_cache_enabled, measEnter_cache_enabled]
                · show (measEnter _).cache_size = (measEnter st).cache_size
                  rw [measEnter_cache_size, measEnter_cache_size]
      | int n =>
        refine ⟨?_, ?_, ?_⟩ <;> simp [from_text, hgf2, measExit_cache, measEnter_cache]
      | bool b =>
        refine ⟨?_, ?_, ?_⟩ <;> simp [from_text, hgf2, measExit_cache, measEnter_cache]
      | none =>
        refine ⟨?_, ?_, ?_⟩ <;> simp [from_text, hgf2, measExit_cache, measEnter_cache]
      | tuple xs =>
        refine ⟨?_, ?_, ?_⟩ <;> simp [from_text, hgf2, measExit_cache, measEnter_cache]
      | list xs =>
        refine ⟨?_, ?_, ?_⟩ <;> simp [from_text, hgf2, measExit_cache, measEnter_cache]
      | dict kvs =>
        refine ⟨?_, ?_, ?_⟩ <;> simp [from_text, hgf2, measExit_cache, measEnter_cache]
      | obj o =>
        refine ⟨?_, ?_, ?_⟩ <;> simp [from_text, hgf2, measExit_cache, measEnter_cache]
  · intro hgf hc ha hen hsz hbody
    rw [from_text_miss_eq st s dt hgf hc ha]
    rcases hads : st.adapters with _ | ⟨a0, rest⟩
    · exact absurd hads ha
    · rcases hfull : pipelineBody (measEnter st) (fun a => a.from_text s) (textKey s)
        with ⟨exc, calls⟩
      rw [hfull] at hbody
      simp only at hbody
      subst hbody
      simp only [pipelineBody, measEnter_adapters, measEnter_conditions, hads] at hfull
      cases hca : a0.from_text s with
      | error e =>
        simp only [hca] at hfull
        simp at hfull
      | ok r0 =>
        simp only [hca] at hfull
        rcases hrr : runRest st.conditions (fun a => a.from_text s) rest 1 r0
          with ⟨rexc, rcalls⟩
        rw [hrr] at hfull
        cases rexc with
        | error e => simp at hfull
        | ok combined =>
          have hfst := congrArg Prod.fst hfull
          simp only at hfst
          injection hfst with hpair
          have hr : deepcopy combined = r := by
            have h := congrArg Prod.fst hpair
            simpa using h
          have hU := congrArg Prod.snd hpair
          simp only at hU
          refine ⟨rfl, ?_⟩
          simp only []
          rw [← hU]
          rw [from_text_cache_hit _ s dt' (deepcopy combined) hgf
            (by rw [checkCache_measExit]
                exact checkCache_updateCache_self _ _ _
                  (by show (measEnter st).cache_enabled = true
                      rw [measEnter_cache_enabled]; exact hen)
                  (by show 1 ≤ (measEnter st).cache_size
                      rw [measEnter_cache_size]; exact hsz))]
          exact hr

/-- Witness for C4 at a one-adapter caching pipeline: the call returns
the adapter's result, and an immediate repeat call (after the caller did
whatever it pleased with its copy) returns the same result from the
cache. -/
theorem from_text_copy_discipline_witness :
    (from_text exCopyPipeline (.str "x") 1).1
      = BridgeResult.mk [PyVal.str "x"] [] [] [] [] ∧
    (from_text (from_text exCopyPipeline (.str "x") 1).2.1 (.str "x") 2).1
      = BridgeResult.mk [PyVal.str "x"] [] [] [] [] :=
  (from_text_copy_discipline exCopyPipeline (.str "x") 1 2 "x" _ _).2
    rfl rfl (by simp [exCopyPipeline]) rfl (by decide) rfl

/-! ### C5 — a failing document-path adapter does not roll the document back -/

/-- C5 counterexample: on a two-adapter pipeline where the first adapter
writes span `(0, 1)` onto the document and the second raises,
`from_spacy` returns a document that still carries the first adapter's
span annotation (and the registered extension defaults) — not the
original unannotated document. -/
theorem from_spacy_failure_keeps_annotations_cex :
    (from_spacy exSpanThenFailPipeline exDoc 1).1
      = .ok (SDoc.mk ["w"] (some [PyVal.tuple [.int 0, .int 1]])
          (some []) (some []) (some [])) ∧
    exDoc.extSpans = Option.none :=
  ⟨rfl, rfl⟩

/-- C5 (amended): when an adapter raises during `from_spacy` after
earlier adapters have run, the pipeline catches the exception, emits one
warning and returns the document exactly as it stood at the failure —
retaining the extension defaults and every annotation written by the
adapters that ran before the failure; nothing is rolled back and nothing
is cached. -/
theorem from_spacy_failure_returns_current_doc
    (st : PipelineState) (d : SDoc) (dt : ℚ) (A B : Adapter) (d1 : SDoc) (e : String)
    (hadp : st.adapters = [A, B])
    (hne : d.tokens ≠ [])
    (hcache : checkCache st (spacyKey d) = Option.none)
    (hcond : condLookup st.conditions 1 = Option.none)
    (hA : A.from_spacy (initExts d) = .ok d1)
    (hB : ∀ x, B.from_spacy x = .error e) :
    (from_spacy st d dt).1 = .ok d1 ∧
    (from_spacy st d dt).2.2.warnings = 1 ∧
    (from_spacy st d dt).2.1.cache = st.cache := by
  have hie : d.tokens.isEmpty = false := by
    cases h : d.tokens
    · exact absurd h hne
    · rfl
  have hc2 : checkCache (measEnter st) (spacyKey d) = Option.none := by
    rw [checkCache_measEnter]; exact hcache
  have hgate : ∀ acc, condGate st.conditions 1 acc = true := by
    intro acc
    simp [condGate, hcond]
  refine ⟨?_, ?_, ?_⟩ <;>
    simp [from_spacy, hie, hc2, measEnter_adapters, measEnter_conditions, hadp, hA,
      runRestSpacy, hgate, hB, measExit_cache, measEnter_cache]

/-- Witness for the amended C5 theorem on the concrete two-adapter
pipeline. -/
theorem from_spacy_failure_returns_current_doc_witness :
    (from_spacy exSpanThenFailPipeline exDoc 1).1
      = .ok (SDoc.mk ["w"] (some [PyVal.tuple [.int 0, .int 1]])
          (some []) (some []) (some [])) ∧
    (from_spacy exSpanThenFailPipeline exDoc 1).2.2.warnings = 1 ∧
    (from_spacy exSpanThenFailPipeline exDoc 1).2.1.cache = exSpanThenFailPipeline.cache :=
  from_spacy_failure_returns_current_doc exSpanThenFailPipeline exDoc 1 _ _ _ "boom"
    rfl (by simp [exDoc]) rfl rfl rfl (fun _ => rfl)

end BridgeNLP
